import Mathlib

/-!
Verification development for the `chain-handler` repository
(`src/chain.ts`, `src/types.ts`).

The TypeScript source is embedded shallowly:

* `Request` / `Response` objects become `Req` / `Resp`: a numeric instance
  identity (JS object identity) together with observable content
  (`ReqData` / `RespData`).  `clone()` and the copying constructors
  allocate a fresh identity and copy the content.
* Allocation of fresh identities is threaded through a state monad `M`
  whose state `St` carries the allocation counter and an instrumentation
  log that handler code (mirroring the test spies of the repository) may
  append to; the engine itself never touches the log.
* JS exceptions become the `Except Err` layer of `M`: a handler throwing
  is `throwErr (Err.userErr n)`; invoking a non-callable value is
  `throwErr Err.typeError`.
* Since a handler array element is at runtime either a function, a
  truthy non-callable, or a falsy value (`null`, `undefined`, `false`,
  `0`, `""`), an array element is embedded as the inductive `Entry`;
  the `if (!first)` test of the engine sees the empty array (head
  `undefined`) and a falsy head the same way, and applying a truthy
  non-callable raises a `TypeError` after the argument
  `request.clone()` has been evaluated, as in JS call semantics.
* The `seen` WeakSet of `chain` is embedded as a list of array
  identities; a fresh array identity is allocated at each `run` entry
  (the `...rest` spread builds a new array per call).  As in the
  source, nothing is ever inserted into `seen`.
* `async` / `await` disappear: evaluation is sequential either way and
  none of the verified properties depend on scheduling.
-/

namespace ChainHandler

/-- Observable content of a `Request`: URL and header list. -/
structure ReqData where
  url : String
  headers : List (String × String)
deriving DecidableEq, Repr

/-- Observable content of a `Response`: status code, body (none = null
body), header list. -/
structure RespData where
  status : Nat
  body : Option String
  headers : List (String × String)
deriving DecidableEq, Repr

/-- A `Request` instance: JS object identity plus observable content. -/
structure Req where
  id : Nat
  data : ReqData
deriving DecidableEq, Repr

/-- A `Response` instance: JS object identity plus observable content. -/
structure Resp where
  id : Nat
  data : RespData
deriving DecidableEq, Repr

/-- Instrumentation events recorded by handler code (the embedding of
the test spies): a bare tag, or the identity and content of a request a
handler received. -/
inductive Event where
  | tag (n : Nat)
  | sawReq (id : Nat) (data : ReqData)
deriving DecidableEq, Repr

/-- Evaluation state: the fresh-identity allocation counter (every JS
object already created has an identity strictly below `fresh`) and the
instrumentation log. -/
structure St where
  fresh : Nat
  log : List Event
deriving DecidableEq, Repr

/-- Failures: the `TypeError` raised by calling a non-callable, or an
arbitrary error thrown by handler code. -/
inductive Err where
  | typeError
  | userErr (n : Nat)
deriving DecidableEq, Repr

/-- The evaluation monad: state (allocation counter + log) with
exceptions. -/
def M (α : Type) : Type := St → Except Err (α × St)

instance : Monad M where
  pure a := fun st => .ok (a, st)
  bind x f := fun st =>
    match x st with
    | .ok (a, st1) => f a st1
    | .error e => .error e

/-- Allocate a fresh object identity (used for the array created by a
`...rest` spread at each recursive call). -/
def freshId : M Nat := fun st => .ok (st.fresh, { st with fresh := st.fresh + 1 })

/-- `request.clone()` and likewise `new Request(request)`: fresh
identity, equal content, no shared mutable sub-state. -/
def cloneReq (r : Req) : M Req :=
  fun st => .ok (⟨st.fresh, r.data⟩, { st with fresh := st.fresh + 1 })

/-- `response.clone()`: fresh identity, equal content. -/
def cloneResp (r : Resp) : M Resp :=
  fun st => .ok (⟨st.fresh, r.data⟩, { st with fresh := st.fresh + 1 })

/-- `new Response(body, init)`: allocate a response with the given
content. -/
def newResponse (d : RespData) : M Resp :=
  fun st => .ok (⟨st.fresh, d⟩, { st with fresh := st.fresh + 1 })

/-- Handler-side instrumentation (test spies): append an event to the
log.  The engine never calls this. -/
def pushLog (e : Event) : M Unit :=
  fun st => .ok ((), { st with log := st.log ++ [e] })

/-- A JS `throw` inside handler code, or the `TypeError` of the
runtime. -/
def throwErr {α : Type} (e : Err) : M α := fun _ => .error e

/-- `NextHandler` from `types.ts`: `(request?: Request) => Response`,
the optional argument embedded as `Option Req`. -/
def NextHandler : Type := Option Req → M Resp

/-- `ChainableHandler` from `types.ts`:
`(request: Request, next: NextHandler) => Response`. -/
def ChainableHandler : Type := Req → NextHandler → M Resp

/-- A runtime element of the handlers array.  The TypeScript type only
admits functions, but at runtime a malformed (non-callable) entry can
occur; its behaviour in `run` depends only on its truthiness. -/
inductive Entry where
  | callable (h : ChainableHandler)
  | falsy
  | truthyNonCallable

/-- The inner `run` of `chain` (`src/chain.ts`):

```
const run = async (request, response, ...handlers) => {
  // Recursive safe
  if (seen.has(handlers)) return response.clone();
  const [first, ...rest] = handlers;
  if (!first) return response.clone();
  const nextHandler = async (nextRequest = request) =>
    (await run(nextRequest.clone(), response.clone(), ...rest)).clone();
  return (await first(request.clone(), nextHandler)).clone();
};
```

The `...handlers` spread allocates a fresh array identity at each call
(`freshId`).  `seen` is only ever tested, never added to, exactly as in
the source.  `if (!first)` returns `response.clone()` when the array is
empty (`first === undefined`) or its head is falsy; a truthy
non-callable head throws `TypeError` after the argument
`request.clone()` has been evaluated.  (The handler-list argument is
placed before the request and response so that the recursion is
structural; the semantics is unchanged.) -/
def run (seen : List Nat) : List Entry → Req → Resp → M Resp
  | handlers, request, response => do
    let seqId ← freshId
    if seqId ∈ seen then cloneResp response
    else
      match handlers with
      | [] => cloneResp response
      | .falsy :: _ => cloneResp response
      | .truthyNonCallable :: _ => do
          let _ ← cloneReq request
          throwErr Err.typeError
      | .callable h :: rest => do
          let rq ← cloneReq request
          let r ← h rq (fun nextRequest? => do
            let nr ← cloneReq (nextRequest?.getD request)
            let rc ← cloneResp response
            let r2 ← run seen rest nr rc
            cloneResp r2)
          cloneResp r

/-- The `nextHandler` closure constructed by `run` for the invocation of
the head handler: clone the forwarded (or current) request, clone the
current response, recurse into the tail, clone the result.  Named here
so that theorems can speak about the exact continuation a handler
receives. -/
def nextHandler (request : Req) (response : Resp) (rest : List Entry) :
    NextHandler :=
  fun nextRequest? => do
    let nr ← cloneReq (nextRequest?.getD request)
    let rc ← cloneResp response
    let r2 ← run [] rest nr rc
    cloneResp r2

/-- `chain` (`src/chain.ts`): create the (never-populated) `seen` set
and delegate to `run`. -/
def chain (request : Req) (response : Resp) (handlers : List Entry) :
    M Resp :=
  run [] handlers request response

/-- The `Chain` builder (`src/chain.ts`).  `objId` embeds the JS object
identity of the builder so that "returns the same entity" is statable;
`handlers` is the private field that the getter of the same name
returns directly. -/
structure Chain where
  objId : Nat
  handlers : List Entry

/-- `Chain.prototype.next`:
`this.#handlers = this.#handlers.concat(handlers); return this;` —
`concat` builds a new array (the stored sequence is replaced wholesale,
never mutated in place), and the same builder entity is returned. -/
def Chain.next (c : Chain) (hs : List Entry) : Chain :=
  { objId := c.objId, handlers := c.handlers ++ hs }

/-- `Chain.prototype.respond`:

```
const newRequest = new Request(request);
defaultResponse ??= new Response(null, { status: 404 });
return chain(newRequest.clone(), defaultResponse.clone(), ...this.handlers);
```
-/
def Chain.respond (c : Chain) (request : Req)
    (defaultResponse : Option Resp) : M Resp := do
  let newRequest ← cloneReq request
  let dresp ←
    match defaultResponse with
    | some r => pure r
    | none => newResponse ⟨404, none, []⟩
  let rq ← cloneReq newRequest
  let rs ← cloneResp dresp
  chain rq rs c.handlers

/-! ### Handler code used in the claims

These are embeddings of concrete handler shapes appearing in the spec,
the README and the test suite of the repository. -/

/-- `() => new Response(...)`: returns a fresh response with content
`d`, never calling `next`. -/
def constH (d : RespData) : ChainableHandler := fun _ _ => newResponse d

/-- `(_, next) => next()`: delegates once and returns the result
untouched. -/
def passThrough : ChainableHandler := fun _ next => next none

/-- A spy handler: records its invocation under tag `t`, then returns a
fresh response with content `d` (the embedding of
`spy(() => new Response())` from the test suite). -/
def spy (t : Nat) (d : RespData) : ChainableHandler := fun _ _ => do
  pushLog (.tag t)
  newResponse d

/-- A capture handler: records the identity and the content of the
request it received, then returns a fresh response with content `d`. -/
def capture (d : RespData) : ChainableHandler := fun r _ => do
  pushLog (.sawReq r.id r.data)
  newResponse d

/-- In-place header mutation of a request: content changes, identity
does not (JS `request.headers.append(k, v)`). -/
def addHeader (hdr : String × String) (rd : ReqData) : ReqData :=
  { rd with headers := rd.headers ++ [hdr] }

/-- `(request, next) => { request.headers.append(k, v); return next(); }`:
mutates the received request instance in place and calls `next()` with
no argument, so the mutated instance `m` is referenced by nobody
downstream. -/
def mutateNextNone (hdr : String × String) : ChainableHandler :=
  fun rq next =>
    let _m : Req := ⟨rq.id, addHeader hdr rq.data⟩
    next none

/-- `(request, next) => { request.headers.append(k, v); return next(request); }`:
mutates the received request instance in place and forwards that very
instance to `next`. -/
def mutateNextSelf (hdr : String × String) : ChainableHandler :=
  fun rq next => next (some ⟨rq.id, addHeader hdr rq.data⟩)

/-- `(_, next) => { throw e }`: a handler that throws. -/
def throwH (n : Nat) : ChainableHandler := fun _ _ => throwErr (.userErr n)

/-- Call `next()` (no argument) `k` times in sequence, discarding the
results. -/
def callNext (next : NextHandler) : Nat → M Unit
  | 0 => pure ()
  | k + 1 => do
      let _ ← next none
      callNext next k

/-- A handler that calls `next()` `k` times and then returns a fresh
response with content `d`. -/
def callNextThen (k : Nat) (d : RespData) : ChainableHandler :=
  fun _ next => do
    callNext next k
    newResponse d

/-! ### Well-behavedness of handler functions

A shallowly embedded handler is an arbitrary Lean function on `M`, so
it could forge object identities that no JS program can produce (for
example return a response whose identity is above the allocation
counter).  `HWf` states exactly the guarantees every JS handler has:
it can only obtain objects whose identity is below the current
allocation counter, and it never rewinds the counter.  `NextOk` is the
(stronger) guarantee the engine provides for the continuation it hands
to a handler: the continuation result is moreover a freshly cloned
object. -/

/-- Guarantee provided by a continuation handed to a handler: the
counter never decreases and the resulting response is an object
allocated during the call. -/
def NextOk (next : NextHandler) : Prop :=
  ∀ o st r st2, next o st = .ok (r, st2) →
    st.fresh ≤ st2.fresh ∧ st.fresh ≤ r.id ∧ r.id < st2.fresh

/-- Guarantee every JS handler function has: assuming its continuation
behaves like the engine (`NextOk`), the counter never decreases and the
returned response is an already-allocated object. -/
def HWf (h : ChainableHandler) : Prop :=
  ∀ req next st r st2, NextOk next → h req next st = .ok (r, st2) →
    st.fresh ≤ st2.fresh ∧ r.id < st2.fresh

/-- Well-behavedness of an array entry: callable entries carry a
well-behaved handler function; non-callables carry nothing. -/
def EntryWf : Entry → Prop
  | .callable h => HWf h
  | .falsy => True
  | .truthyNonCallable => True

/-! ### Concrete fixtures for closed (witness / counterexample)
statements -/

/-- A request content: `http://localhost`, no headers. -/
def rd0 : ReqData := ⟨"http://localhost", []⟩

/-- `new Response(null, { status: 404 })` content. -/
def notFound : RespData := ⟨404, none, []⟩

/-- A `200 hello` response content. -/
def hello : RespData := ⟨200, some "hello", []⟩

/-- A concrete request instance. -/
def req0 : Req := ⟨100, rd0⟩

/-- A concrete fallback response instance. -/
def resp0 : Resp := ⟨101, notFound⟩

/-- A concrete initial state whose counter lies above every fixture
identity. -/
def st0 : St := ⟨200, []⟩

/-! ## Theorems -/

@[simp] theorem M.pure_apply {α : Type} (a : α) (st : St) :
    (pure a : M α) st = .ok (a, st) := rfl

@[simp] theorem M.bind_apply {α β : Type} (x : M α) (f : α → M β) (st : St) :
    (x >>= f) st =
      match x st with
      | .ok (a, st1) => f a st1
      | .error e => .error e := rfl

theorem M.bind_eq_ok {α β : Type} {x : M α} {f : α → M β} {st st2 : St}
    {b : β} :
    (x >>= f) st = .ok (b, st2) ↔
      ∃ a st1, x st = .ok (a, st1) ∧ f a st1 = .ok (b, st2) := by
  simp only [M.bind_apply]
  cases hx : x st with
  | ok p =>
      cases p with
      | mk a st1 =>
          constructor
          · intro hf
            exact ⟨a, st1, rfl, hf⟩
          · rintro ⟨a2, st3, heq, hf⟩
            cases heq
            exact hf
  | error e =>
      constructor
      · intro hf
        cases hf
      · rintro ⟨a2, st3, heq, hf⟩
        cases heq

@[simp] theorem freshId_apply (st : St) :
    freshId st = .ok (st.fresh, { st with fresh := st.fresh + 1 }) := rfl

@[simp] theorem cloneReq_apply (r : Req) (st : St) :
    cloneReq r st = .ok (⟨st.fresh, r.data⟩, { st with fresh := st.fresh + 1 }) := rfl

@[simp] theorem cloneResp_apply (r : Resp) (st : St) :
    cloneResp r st = .ok (⟨st.fresh, r.data⟩, { st with fresh := st.fresh + 1 }) := rfl

@[simp] theorem newResponse_apply (d : RespData) (st : St) :
    newResponse d st = .ok (⟨st.fresh, d⟩, { st with fresh := st.fresh + 1 }) := rfl

@[simp] theorem pushLog_apply (e : Event) (st : St) :
    pushLog e st = .ok ((), { st with log := st.log ++ [e] }) := rfl

@[simp] theorem throwErr_apply {α : Type} (e : Err) (st : St) :
    (throwErr e : M α) st = .error e := rfl

/-! ### Operational unfolding of `run` (with the empty `seen` set, the
only one ever used: `chain` creates it empty and nothing is added). -/

/-- Base case: empty handler array returns a duplicate of the current
response (one identity is consumed for the spread array, one for the
clone). -/
theorem run_nil (req : Req) (resp : Resp) (st : St) :
    run [] [] req resp st =
      .ok (⟨st.fresh + 1, resp.data⟩, ⟨st.fresh + 2, st.log⟩) := rfl

/-- A falsy head entry is indistinguishable from the end of the array
for `if (!first)`: duplicate of the current response, later entries
unreached. -/
theorem run_falsy (rest : List Entry) (req : Req) (resp : Resp) (st : St) :
    run [] (.falsy :: rest) req resp st =
      .ok (⟨st.fresh + 1, resp.data⟩, ⟨st.fresh + 2, st.log⟩) := rfl

/-- A truthy non-callable head raises `TypeError`. -/
theorem run_truthy (rest : List Entry) (req : Req) (resp : Resp) (st : St) :
    run [] (.truthyNonCallable :: rest) req resp st = .error Err.typeError := rfl

/-- Callable head: the handler is applied to a fresh clone of the
current request and to the `nextHandler` continuation over the tail;
its result is cloned. -/
theorem run_cons_callable (h : ChainableHandler) (rest : List Entry)
    (req : Req) (resp : Resp) (st : St) :
    run [] (.callable h :: rest) req resp st =
      (do
        let r ← h ⟨st.fresh + 1, req.data⟩ (nextHandler req resp rest)
        cloneResp r) ⟨st.fresh + 2, st.log⟩ := rfl

/-! ### Freshness of engine results

Whenever the engine terminates normally on well-behaved handlers, the
allocation counter never decreases and the returned response is an
object freshly allocated during the call (its identity lies between the
entry counter and the exit counter).  This is the engine-side
guarantee behind identity isolation. -/

theorem run_advances :
    ∀ (handlers : List Entry), (∀ e ∈ handlers, EntryWf e) →
      ∀ (req : Req) (resp : Resp) (st st2 : St) (r : Resp),
        run [] handlers req resp st = .ok (r, st2) →
        st.fresh ≤ st2.fresh ∧ st.fresh ≤ r.id ∧ r.id < st2.fresh := by
  intro handlers
  induction handlers with
  | nil =>
      intro _ req resp st st2 r h
      rw [run_nil] at h
      injection h with h
      injection h with h1 h2
      subst h1; subst h2
      simp
  | cons e rest ih =>
      cases e with
      | falsy =>
          intro _ req resp st st2 r h
          rw [run_falsy] at h
          injection h with h
          injection h with h1 h2
          subst h1; subst h2
          simp
      | truthyNonCallable =>
          intro _ req resp st st2 r h
          rw [run_truthy] at h
          cases h
      | callable hf =>
          intro hwf req resp st st2 r h
          rw [run_cons_callable] at h
          rw [M.bind_eq_ok] at h
          obtain ⟨r0, st1, hcall, hclone⟩ := h
          have hnext : NextOk (nextHandler req resp rest) := by
            intro o st3 r3 st4 hn
            unfold nextHandler at hn
            rw [M.bind_eq_ok] at hn
            obtain ⟨nr, stA, hA, hn⟩ := hn
            rw [M.bind_eq_ok] at hn
            obtain ⟨rc, stB, hB, hn⟩ := hn
            rw [M.bind_eq_ok] at hn
            obtain ⟨r2, stC, hC, hD⟩ := hn
            have hadv := ih (fun e he => hwf e (List.mem_cons_of_mem _ he))
              nr rc stB stC r2 hC
            simp only [cloneReq_apply, Except.ok.injEq, Prod.mk.injEq] at hA
            simp only [cloneResp_apply, Except.ok.injEq, Prod.mk.injEq] at hB hD
            obtain ⟨hA1, hA2⟩ := hA
            obtain ⟨hB1, hB2⟩ := hB
            obtain ⟨hD1, hD2⟩ := hD
            subst hA2; subst hB2; subst hD2
            subst hD1
            simp at hadv ⊢
            omega
          have hhf := hwf (.callable hf) (List.mem_cons_self _ _)
            ⟨st.fresh + 1, req.data⟩ (nextHandler req resp rest)
            ⟨st.fresh + 2, st.log⟩ r0 st1 hnext hcall
          simp only [cloneResp_apply, Except.ok.injEq, Prod.mk.injEq] at hclone
          obtain ⟨hc1, hc2⟩ := hclone
          subst hc1; subst hc2
          simp at hhf ⊢
          omega

/-- The continuation the engine hands to a handler satisfies the
guarantee `NextOk`, provided the tail handlers are well-behaved. -/
theorem nextHandler_ok (rest : List Entry) (hwf : ∀ e ∈ rest, EntryWf e)
    (req : Req) (resp : Resp) : NextOk (nextHandler req resp rest) := by
  intro o st3 r3 st4 hn
  unfold nextHandler at hn
  rw [M.bind_eq_ok] at hn
  obtain ⟨nr, stA, hA, hn⟩ := hn
  rw [M.bind_eq_ok] at hn
  obtain ⟨rc, stB, hB, hn⟩ := hn
  rw [M.bind_eq_ok] at hn
  obtain ⟨r2, stC, hC, hD⟩ := hn
  have hadv := run_advances rest hwf nr rc stB stC r2 hC
  simp only [cloneReq_apply, Except.ok.injEq, Prod.mk.injEq] at hA
  simp only [cloneResp_apply, Except.ok.injEq, Prod.mk.injEq] at hB hD
  obtain ⟨hA1, hA2⟩ := hA
  obtain ⟨hB1, hB2⟩ := hB
  obtain ⟨hD1, hD2⟩ := hD
  subst hA2; subst hB2; subst hD2; subst hD1
  simp at hadv ⊢
  omega

/-- `constH d` is a well-behaved handler: it allocates its result. -/
theorem constH_wf (d : RespData) : HWf (constH d) := by
  intro req next st r st2 _ hcall
  simp only [constH, newResponse_apply, Except.ok.injEq, Prod.mk.injEq] at hcall
  obtain ⟨h1, h2⟩ := hcall
  subst h1; subst h2
  simp

/-- Closed form of the continuation over the one-element tail
`[spy t d]`, invoked with no argument: the spy records one tag, seven
identities are consumed, and the result is a clone of a clone of the
spy response. -/
theorem nextHandler_spy (t : Nat) (d : RespData) (req : Req) (resp : Resp)
    (st : St) :
    nextHandler req resp [.callable (spy t d)] none st =
      .ok (⟨st.fresh + 6, d⟩, ⟨st.fresh + 7, st.log ++ [.tag t]⟩) := rfl

/-- Calling the continuation over the tail `[spy t d]` `k` times in
sequence records the tag `k` times: every single call re-evaluates the
whole tail. -/
theorem callNext_spy (t : Nat) (d : RespData) (req : Req) (resp : Resp) :
    ∀ (k : Nat) (st : St),
      callNext (nextHandler req resp [.callable (spy t d)]) k st =
        .ok ((), ⟨st.fresh + 7 * k, st.log ++ List.replicate k (.tag t)⟩) := by
  intro k
  induction k with
  | zero =>
      intro st
      simp [callNext]
  | succ k ih =>
      intro st
      show (nextHandler req resp [.callable (spy t d)] none >>= fun _ =>
        callNext (nextHandler req resp [.callable (spy t d)]) k) st = _
      rw [M.bind_apply, nextHandler_spy]
      dsimp only
      rw [ih]
      simp only [Except.ok.injEq, Prod.mk.injEq, St.mk.injEq, true_and]
      constructor
      · omega
      · simp [List.replicate_succ, List.append_assoc]

/-! ## Claim theorems -/

/-- C1: the claim states that re-encountering the same tail sequence
within one top-level `chain` invocation (for example because a handler
calls its next-function more than once) short-circuits the second
evaluation, capping reentry at one pass per distinct tail per
top-level call.  The code violates this: `seen.add` is never called
and every recursion spreads a fresh array, so the guard
`seen.has(handlers)` never fires.  Concretely, with a head handler
that calls `next()` twice and a downstream spy, the spy runs twice in
a single top-level call — the second pass is a full re-evaluation, not
a short-circuit. -/
theorem c1_reentry_unbounded :
    Except.map (fun p => p.2.log)
      (chain req0 resp0
        [.callable (callNextThen 2 notFound), .callable (spy 1 hello)] st0) =
      .ok [Event.tag 1, Event.tag 1] := rfl

/-- C2 counterexample: a falsy non-callable entry (such as `null`) in
the handler sequence does not surface any error: the engine silently
returns a duplicate of the current response and never reaches the
handler after it (the log stays empty), contradicting the claim that a
malformed entry is surfaced immediately. -/
theorem c2_falsy_silently_recovers :
    chain req0 resp0 [Entry.falsy, Entry.callable (spy 1 hello)] st0 =
      .ok (⟨201, notFound⟩, ⟨202, []⟩) := rfl

/-- C2 (amended): a truthy non-callable entry at the front of the
remaining sequence raises an immediate `TypeError`; a falsy
non-callable entry is instead treated exactly like the end of the
sequence — the engine returns a duplicate of the current response
without error and without invoking any later handler; the builder
itself performs no validation and stores malformed entries as given. -/
theorem c2_malformed_entry (rest : List Entry) (req : Req) (resp : Resp)
    (st : St) (c : Chain) (es : List Entry) :
    chain req resp (Entry.truthyNonCallable :: rest) st = .error Err.typeError ∧
    chain req resp (Entry.falsy :: rest) st =
      .ok (⟨st.fresh + 1, resp.data⟩, ⟨st.fresh + 2, st.log⟩) ∧
    (Chain.next c es).handlers = c.handlers ++ es :=
  ⟨rfl, rfl, rfl⟩

/-- C3: for every handler sequence of well-behaved handlers, a normal
result of `chain` is a fresh duplicate: its identity differs from the
fallback response passed in; when no handler runs the result content
equals the fallback content; and in the non-empty case the result
differs in identity from — while agreeing in content with — the
response instance returned by the head handler invocation. -/
theorem c3_identity_isolation
    (handlers : List Entry) (req : Req) (resp : Resp) (st st2 : St) (r : Resp)
    (hwf : ∀ e ∈ handlers, EntryWf e)
    (hid : resp.id < st.fresh)
    (hrun : chain req resp handlers st = .ok (r, st2)) :
    r.id ≠ resp.id ∧
    (handlers = [] → r.data = resp.data) ∧
    (∀ hf rest r0 st1,
      handlers = Entry.callable hf :: rest →
      hf ⟨st.fresh + 1, req.data⟩ (nextHandler req resp rest)
        ⟨st.fresh + 2, st.log⟩ = .ok (r0, st1) →
      r.data = r0.data ∧ r.id ≠ r0.id) := by
  simp only [chain] at hrun
  have hadv := run_advances handlers hwf req resp st st2 r hrun
  refine ⟨by omega, ?_, ?_⟩
  · intro hnil
    subst hnil
    rw [run_nil] at hrun
    injection hrun with h
    injection h with h1 h2
    rw [← h1]
  · intro hf rest r0 st1 hcons hcall
    subst hcons
    rw [run_cons_callable, M.bind_eq_ok] at hrun
    obtain ⟨r0x, st1x, hcallx, hclone⟩ := hrun
    rw [hcall] at hcallx
    injection hcallx with h
    injection h with h1 h2
    subst h1; subst h2
    have hnext : NextOk (nextHandler req resp rest) :=
      nextHandler_ok rest (fun e he => hwf e (List.mem_cons_of_mem _ he)) req resp
    have hhf := hwf (.callable hf) (List.mem_cons_self _ _)
      ⟨st.fresh + 1, req.data⟩ (nextHandler req resp rest)
      ⟨st.fresh + 2, st.log⟩ r0 st1 hnext hcall
    simp only [cloneResp_apply, Except.ok.injEq, Prod.mk.injEq] at hclone
    obtain ⟨hc1, hc2⟩ := hclone
    subst hc1
    simp at hhf ⊢
    omega

/-- C3 witness: with one `constH` handler, a concrete request, the
concrete fallback `resp0` (identity 101) and a counter at 200, the
result has identity 203 and is therefore not the fallback instance. -/
theorem c3_identity_isolation_witness :
    (Resp.mk 203 hello).id ≠ resp0.id :=
  (c3_identity_isolation [Entry.callable (constH hello)] req0 resp0 st0
    ⟨204, []⟩ ⟨203, hello⟩
    (by
      intro e he
      simp only [List.mem_singleton] at he
      subst he
      exact constH_wf hello)
    (by decide)
    rfl).1

/-- C4: `respond` with the fallback omitted and an empty handler
sequence returns a response with status 404 and empty (null) body and
no headers; the internally constructed default carries identity
`st.fresh + 1`, the returned response identity `st.fresh + 5`, so the
result is never the default instance itself. -/
theorem c4_default_fallback (cid : Nat) (req : Req) (st : St) :
    Chain.respond ⟨cid, []⟩ req none st =
      .ok (⟨st.fresh + 5, ⟨404, none, []⟩⟩, ⟨st.fresh + 6, st.log⟩) ∧
    st.fresh + 5 ≠ st.fresh + 1 :=
  ⟨rfl, by omega⟩

/-- C5: with handlers `[h0, h1]` where `h0` mutates its received
request instance — if `h0` calls `next()` with no argument, `h1`
receives a request whose content equals the original request content
(no trace of the mutation); if `h0` calls `next(r)` with the mutated
instance `r` (identity `st.fresh + 1`), `h1` receives the mutated
content but under the fresh identity `st.fresh + 5`, a duplicate
rather than the instance `r` itself. -/
theorem c5_request_forwarding (hdr : String × String) (d : RespData)
    (req : Req) (resp : Resp) (st : St) :
    chain req resp [.callable (mutateNextNone hdr), .callable (capture d)] st =
      .ok (⟨st.fresh + 9, d⟩,
        ⟨st.fresh + 10, st.log ++ [.sawReq (st.fresh + 5) req.data]⟩) ∧
    chain req resp [.callable (mutateNextSelf hdr), .callable (capture d)] st =
      .ok (⟨st.fresh + 9, d⟩,
        ⟨st.fresh + 10,
          st.log ++ [.sawReq (st.fresh + 5) (addHeader hdr req.data)]⟩) ∧
    st.fresh + 5 ≠ st.fresh + 1 :=
  ⟨rfl, rfl, by omega⟩

/-- C6: with handlers `[h0, h1]` where `h0` delegates once via
`next()` and returns the result untouched and `h1` is a spy returning
content `d`, the spy is invoked exactly once (exactly one tag appended
to the log) and the final response content equals `d`, the content of
the response of `h1`. -/
theorem c6_delegation (t : Nat) (d : RespData) (req : Req) (resp : Resp)
    (st : St) :
    chain req resp [.callable passThrough, .callable (spy t d)] st =
      .ok (⟨st.fresh + 9, d⟩, ⟨st.fresh + 10, st.log ++ [.tag t]⟩) := rfl

/-- C7: with handlers `[h0, h1]` where `h0` returns a response of
content `d` without invoking its next-function, the result is
independent of `h1` (which is universally quantified) and the log is
unchanged — `h1` is invoked zero times — and the final response
content equals `d`, the content returned by `h0`. -/
theorem c7_short_circuit (d : RespData) (h1 : ChainableHandler)
    (req : Req) (resp : Resp) (st : St) :
    chain req resp [.callable (constH d), .callable h1] st =
      .ok (⟨st.fresh + 3, d⟩, ⟨st.fresh + 4, st.log⟩) := rfl

/-- C8: a thrown handler failure propagates unchanged through any
number of delegating handlers above it and any sequence of entries
below it: the engine returns exactly that error — no retry, no
fallback substitution, no conversion into a response. -/
theorem c8_failure_propagates (n e : Nat) (rest : List Entry)
    (req : Req) (resp : Resp) (st : St) :
    chain req resp
      (List.replicate n (.callable passThrough) ++ .callable (throwH e) :: rest)
      st = .error (.userErr e) := by
  induction n generalizing req resp st with
  | zero =>
      simp only [List.replicate, List.nil_append, chain]
      rw [run_cons_callable]
      rfl
  | succ n ih =>
      simp only [List.replicate_succ, List.cons_append, chain]
      rw [run_cons_callable]
      have hnh : nextHandler req resp
          (List.replicate n (.callable passThrough) ++
            .callable (throwH e) :: rest) none
          (⟨st.fresh + 2, st.log⟩ : St) = .error (.userErr e) := by
        have hrun2 := ih ⟨st.fresh + 2, req.data⟩ ⟨st.fresh + 3, resp.data⟩
          ⟨st.fresh + 4, st.log⟩
        simp only [chain] at hrun2
        show (run []
            (List.replicate n (.callable passThrough) ++
              .callable (throwH e) :: rest)
            ⟨st.fresh + 2, req.data⟩ ⟨st.fresh + 3, resp.data⟩ >>=
              fun r2 => cloneResp r2)
            (⟨st.fresh + 4, st.log⟩ : St) = _
        rw [M.bind_apply, hrun2]
      show (passThrough ⟨st.fresh + 1, req.data⟩
          (nextHandler req resp
            (List.replicate n (.callable passThrough) ++
              .callable (throwH e) :: rest)) >>=
          fun r => cloneResp r) ⟨st.fresh + 2, st.log⟩ = _
      simp only [passThrough]
      rw [M.bind_apply, hnh]

/-- C9: appending `[a, b, c3]` and then `[d]` to a builder yields the
stored sequence of the original followed by `a, b, c3, d` in argument
order (length grows by 4), the same builder entity (same object
identity) is returned, and the sequence read captured before the later
append — the value of `handlers` after the first `next` call — is
`c.handlers ++ [a, b, c3]`, unaffected by the second append because
`concat` replaces the stored array wholesale. -/
theorem c9_append_ordering (c : Chain) (a b c3 d : Entry) :
    ((c.next [a, b, c3]).next [d]).handlers = c.handlers ++ [a, b, c3, d] ∧
    ((c.next [a, b, c3]).next [d]).objId = c.objId ∧
    (c.next [a, b, c3]).handlers = c.handlers ++ [a, b, c3] ∧
    ((c.next [a, b, c3]).next [d]).handlers.length = c.handlers.length + 4 := by
  simp [Chain.next]

/-- C10: a handler may call its next-function any number of times; with
a head handler performing `k` sequential `next()` calls over the tail
`[spy t d1]`, the spy is invoked exactly `k` times (the log gains `k`
tags): each call independently re-evaluates the entire remaining
tail. -/
theorem c10_next_reinvokes_tail (k t : Nat) (d d1 : RespData)
    (req : Req) (resp : Resp) (st : St) :
    chain req resp [.callable (callNextThen k d), .callable (spy t d1)] st =
      .ok (⟨st.fresh + 3 + 7 * k, d⟩,
        ⟨st.fresh + 4 + 7 * k, st.log ++ List.replicate k (.tag t)⟩) := by
  have hinner : (callNext (nextHandler req resp [.callable (spy t d1)]) k >>=
      fun _ => newResponse d) (⟨st.fresh + 2, st.log⟩ : St) =
      .ok (⟨st.fresh + 2 + 7 * k, d⟩,
        ⟨st.fresh + 2 + 7 * k + 1, st.log ++ List.replicate k (.tag t)⟩) := by
    rw [M.bind_apply, callNext_spy]
    rfl
  simp only [chain]
  rw [run_cons_callable]
  show (callNextThen k d ⟨st.fresh + 1, req.data⟩
      (nextHandler req resp [.callable (spy t d1)]) >>=
        fun r => cloneResp r) ⟨st.fresh + 2, st.log⟩ = _
  simp only [callNextThen]
  rw [M.bind_apply, hinner]
  dsimp only
  simp only [cloneResp_apply, Except.ok.injEq, Prod.mk.injEq, Resp.mk.injEq,
    St.mk.injEq]
  exact ⟨⟨by omega, trivial⟩, by omega, trivial⟩

end ChainHandler
